import Mathlib

/-!
Verification of the Solder-goggles LED controller core: the hex color
codec (`src/utils.cpp`, `parseHexColor`) and the WebSocket command
dispatcher (`wsEvent` in `test/test_ws_event.cpp`, with the earlier
variant in `test/test_wsEvent.cpp`).

C strings are modelled as the list of their characters before the
terminator; reading past the end yields the nul character.  C `int`
values are modelled as `Int` with explicit wrap at `2^64` where the code
converts to `size_t`; `std::stoi` overflow (`std::out_of_range`) is
modelled as `none` (an escaping exception / abort).
-/

namespace SolderGoggles

/-- The nul character, the C string terminator. -/
def nul : Char := Char.ofNat 0

/-- Read character `i` of a C string: past the end we read the terminator. -/
def strAt (s : List Char) (i : Nat) : Char := s.getD i nul

/-- The three hex-digit branches of the loop body of `parseHexColor`
(`src/utils.cpp` lines 19-27); character comparisons are on code values,
as in C.  Returns `none` on the final `else` (non-hex character). -/
def hexDigitVal (c : Char) : Option Nat :=
  if Char.toNat '0' ≤ c.toNat ∧ c.toNat ≤ Char.toNat '9' then
    some (c.toNat - Char.toNat '0')
  else if Char.toNat 'a' ≤ c.toNat ∧ c.toNat ≤ Char.toNat 'f' then
    some (c.toNat - Char.toNat 'a' + 10)
  else if Char.toNat 'A' ≤ c.toNat ∧ c.toNat ≤ Char.toNat 'F' then
    some (c.toNat - Char.toNat 'A' + 10)
  else
    none

/-- The `for` loop of `parseHexColor` (`src/utils.cpp` lines 13-28),
running `k` remaining iterations starting at index `i` with accumulator
`result`: each iteration returns `false` (here `none`) on the terminator
or a non-hex character, otherwise does `result <<= 4; result |= digit`. -/
def parseHexLoop (s : List Char) : Nat → Nat → Nat → Option Nat
  | _, 0, result => some result
  | i, k + 1, result =>
    let c := strAt s i
    if c = nul then none
    else
      match hexDigitVal c with
      | some d => parseHexLoop s (i + 1) k ((result <<< 4) ||| d)
      | none => none

/-- `parseHexColor` of `src/utils.cpp` on a non-null C string: run the
six-iteration loop, then require `hex[6] == '\0'`. -/
def parseHexColorStr (s : List Char) : Option Nat :=
  match parseHexLoop s 0 6 0 with
  | none => none
  | some result => if strAt s 6 = nul then some result else none

/-- `parseHexColor` of `src/utils.cpp`: `none` input models the null
pointer (rejected at line 9). -/
def parseHexColor : Option (List Char) → Option Nat
  | none => none
  | some s => parseHexColorStr s

/-- `parseHexColor` with its out-parameter made explicit: the pair is
(returned bool, final content of `value` whose initial content is `v`).
The source writes `value = result` only on the success path
(`src/utils.cpp` line 32); every `return false` leaves `value` as it was. -/
def parseHexColorOut (hex : Option (List Char)) (v : Nat) : Bool × Nat :=
  match hex with
  | none => (false, v)
  | some s =>
    match parseHexLoop s 0 6 0 with
    | none => (false, v)
    | some result =>
      if strAt s 6 = nul then (true, result) else (false, v)

/-- `NUM_LEDS` of `test_ws_event.cpp` line 10. -/
def NUM_LEDS : Nat := 13

/-- `INT_MAX` of the target platform (32-bit `int`). -/
def INT_MAX : Int := 2147483647

/-- 2^64, the modulus of `size_t` arithmetic. -/
def USIZE : Int := 18446744073709551616

/-- A preset (`test_ws_event.cpp` lines 11-15): a color and `NUM_LEDS`
per-pixel colors. -/
structure Preset where
  color : Nat
  leds : List Nat
deriving DecidableEq

/-- The default-constructed preset: black, all pixels black. -/
def defaultPreset : Preset := ⟨0, List.replicate NUM_LEDS 0⟩

/-- The controller globals of `test_ws_event.cpp` lines 17-20. -/
structure CState where
  presets : List Preset
  currentPreset : Int
  brightness : Nat
  animInterval : Nat
deriving DecidableEq

/-- The state installed by `setUp()` of `test_ws_event.cpp`: three default
presets, index 0, brightness 255, interval 50. -/
def initState : CState :=
  ⟨List.replicate 3 defaultPreset, 0, 255, 50⟩

/-- `nextPreset()` index arithmetic (`test_ws_event.cpp` line 28):
`(currentPreset + 1) % presets.size()`, the `int` operand converted to
`size_t` before the modulo. -/
def nextPresetIdx (i : Int) (len : Nat) : Int :=
  ((i + 1) % USIZE) % (len : Int)

/-- `previousPreset()` index arithmetic (`test_ws_event.cpp` line 32):
`(currentPreset - 1 + presets.size()) % presets.size()` with `int`
converted to `size_t` and the sum wrapping at 2^64. -/
def previousPresetIdx (i : Int) (len : Nat) : Int :=
  ((((i - 1) % USIZE) + (len : Int)) % USIZE) % (len : Int)

/-- One character of `"0123456789"`, as in the
`find_first_not_of("0123456789") == npos` checks. -/
def isDigitCh (c : Char) : Bool :=
  decide (Char.toNat '0' ≤ c.toNat) && decide (c.toNat ≤ Char.toNat '9')

/-- The validation applied to every numeric argument:
`!str.empty() && str.find_first_not_of("0123456789") == npos`. -/
def allDigits (s : List Char) : Bool :=
  !s.isEmpty && s.all isDigitCh

/-- Decimal value of a digit string. -/
def digitsToNat (s : List Char) : Nat :=
  s.foldl (fun a c => 10 * a + (c.toNat - Char.toNat '0')) 0

/-- Models `std::stoi` on an argument already validated to be all decimal
digits: returns the value, except that a value above `INT_MAX` throws
`std::out_of_range` (modelled as `none` — the exception escapes
`wsEvent`, which has no handler). -/
def stoiDigits (s : List Char) : Option Int :=
  if (digitsToNat s : Int) > INT_MAX then none else some (digitsToNat s : Int)

/-- `if (!tok.empty() && tok[0] == '#') tok.erase(0, 1)` of the `leds:`
branch (`test_ws_event.cpp` lines 94-95). -/
def stripHash (t : List Char) : List Char :=
  if t.head? = some '#' then t.drop 1 else t

/-- A `leds:` token is accepted when the codec parses it after the
optional `#` is stripped. -/
def tokenOk (t : List Char) : Bool :=
  (parseHexColor (some (stripHash t))).isSome

/-- The value a `leds:` token parses to (0 when it does not parse). -/
def tokVal (t : List Char) : Nat :=
  (parseHexColor (some (stripHash t))).getD 0

/-- The token sequence the `leds:` loop of `test_ws_event.cpp` lines
90-108 walks: split before each `,`, consume the `,`, and stop when the
remainder is empty (so a trailing `,` produces no empty final token). -/
def splitTokens (data : List Char) : List (List Char) :=
  if h : data = [] then []
  else
    (data.takeWhile (fun c => c ≠ ',')) ::
      splitTokens ((data.dropWhile (fun c => c ≠ ',')).drop 1)
termination_by data.length
decreasing_by
  have hle := (List.dropWhile_sublist (l := data) (p := fun c => c ≠ ',')).length_le
  have hpos : 0 < data.length := List.length_pos.mpr h
  simp only [List.length_drop]
  omega

/-- The `leds:` loop of `test_ws_event.cpp` lines 87-108: starting from
slot `idx` with scratch buffer `temp`, parse comma-separated tokens; a
failing token sets `valid = false` and breaks (result `none`); the loop
also stops at `NUM_LEDS` slots; the commit test `valid && data.empty()`
yields `some temp` exactly when all data was consumed successfully. -/
def ledsLoop (idx : Nat) (data : List Char) (temp : List Nat) :
    Option (List Nat) :=
  if h : idx < NUM_LEDS ∧ data ≠ [] then
    match parseHexColor (some (stripHash (data.takeWhile (fun c => c ≠ ',')))) with
    | some v =>
      ledsLoop (idx + 1) ((data.dropWhile (fun c => c ≠ ',')).drop 1)
        (temp.set idx v)
    | none => none
  else if data = [] then some temp else none
termination_by data.length
decreasing_by
  have hle := (List.dropWhile_sublist (l := data) (p := fun c => c ≠ ',')).length_le
  have hpos : 0 < data.length := List.length_pos.mpr h.2
  simp only [List.length_drop]
  omega

/-- `presets[currentPreset].color = val` (`test_ws_event.cpp` line 73). -/
def setCurrentColor (s : CState) (val : Nat) : CState :=
  let i := s.currentPreset.toNat
  let p := s.presets.getD i defaultPreset
  { s with presets := s.presets.set i { p with color := val } }

/-- `presets[currentPreset].leds = temp` (`test_ws_event.cpp` line 110). -/
def setCurrentLeds (s : CState) (temp : List Nat) : CState :=
  let i := s.currentPreset.toNat
  let p := s.presets.getD i defaultPreset
  { s with presets := s.presets.set i { p with leds := temp } }

/-- `wsEvent` of `test_ws_event.cpp` lines 37-114 on a text frame, as a
function from prior state and message to `none` (an escaping
`std::stoi` exception) or the new state paired with whether
`applyPreset()` was invoked during the call.  Note the `next` and `prev`
branches call only `nextPreset()` / `previousPreset()`, which in this
file do not call `applyPreset()`. -/
def wsEvent (s : CState) (msg : List Char) : Option (CState × Bool) :=
  if msg = "next".toList then
    some ({ s with currentPreset := nextPresetIdx s.currentPreset s.presets.length }, false)
  else if msg = "prev".toList then
    some ({ s with currentPreset := previousPresetIdx s.currentPreset s.presets.length }, false)
  else if msg.take 4 = "set:".toList then
    if allDigits (msg.drop 4) then
      match stoiDigits (msg.drop 4) with
      | none => none
      | some idx =>
        if 0 ≤ idx ∧ idx < (s.presets.length : Int) then
          some ({ s with currentPreset := idx }, true)
        else some (s, false)
    else some (s, false)
  else if msg.take 7 = "bright:".toList then
    if allDigits (msg.drop 7) then
      match stoiDigits (msg.drop 7) with
      | none => none
      | some val =>
        if 0 ≤ val ∧ val ≤ 255 then
          some ({ s with brightness := val.toNat }, true)
        else some (s, false)
    else some (s, false)
  else if msg.take 6 = "color:".toList then
    if (msg.drop 6).length = 7 ∧ (msg.drop 6).head? = some '#' then
      match parseHexColor (some ((msg.drop 6).drop 1)) with
      | some val => some (setCurrentColor s val, true)
      | none => some (s, false)
    else some (s, false)
  else if msg.take 6 = "speed:".toList then
    if allDigits (msg.drop 6) then
      match stoiDigits (msg.drop 6) with
      | none => none
      | some val =>
        if 0 < val then some ({ s with animInterval := val.toNat }, false)
        else some (s, false)
    else some (s, false)
  else if msg.take 5 = "leds:".toList then
    match ledsLoop 0 (msg.drop 5) (List.replicate NUM_LEDS 0) with
    | some temp => some (setCurrentLeds s temp, true)
    | none => some (s, false)
  else some (s, false)

/-- `wsEvent` of the earlier variant `test_wsEvent.cpp` lines 35-65,
whose `nextPreset()` / `previousPreset()` (lines 25-33) do call
`applyPreset()`; it handles only `next`, `prev`, `set:` and `bright:`.
The state is modelled with the same record (its extra fields are simply
never touched). -/
def wsEventB (s : CState) (msg : List Char) : Option (CState × Bool) :=
  if msg = "next".toList then
    some ({ s with currentPreset := nextPresetIdx s.currentPreset s.presets.length }, true)
  else if msg = "prev".toList then
    some ({ s with currentPreset := previousPresetIdx s.currentPreset s.presets.length }, true)
  else if msg.take 4 = "set:".toList then
    if allDigits (msg.drop 4) then
      match stoiDigits (msg.drop 4) with
      | none => none
      | some idx =>
        if 0 ≤ idx ∧ idx < (s.presets.length : Int) then
          some ({ s with currentPreset := idx }, true)
        else some (s, false)
    else some (s, false)
  else if msg.take 7 = "bright:".toList then
    if allDigits (msg.drop 7) then
      match stoiDigits (msg.drop 7) with
      | none => none
      | some val =>
        if 0 ≤ val ∧ val ≤ 255 then
          some ({ s with brightness := val.toNat }, true)
        else some (s, false)
    else some (s, false)
  else some (s, false)

/-- Process a sequence of messages, propagating an escaping exception. -/
def runMsgs (s : CState) : List (List Char) → Option CState
  | [] => some s
  | m :: ms =>
    match wsEvent s m with
    | none => none
    | some (s', _) => runMsgs s' ms

/-- Successive writes `temp[idx] = v; temp[idx+1] = v'; ...` performed by
the `leds:` loop. -/
def writeVals (temp : List Nat) (idx : Nat) : List Nat → List Nat
  | [] => temp
  | v :: vs => writeVals (temp.set idx v) (idx + 1) vs

/-- The committed buffer when every token parses: the token values
followed by the zero padding of the untouched scratch slots. -/
def paddedVals (data : List Char) : List Nat :=
  ((splitTokens data).map tokVal) ++
    List.replicate (NUM_LEDS - (splitTokens data).length) 0

/-- The documented controller-state invariant: `currentPresetIndex` is in
`[0, presets.length)`. -/
def Inv (s : CState) : Prop :=
  0 ≤ s.currentPreset ∧ s.currentPreset < (s.presets.length : Int)

end SolderGoggles
namespace SolderGoggles

theorem hexDigitVal_lt_16 {c : Char} {d : Nat} (h : hexDigitVal c = some d) :
    d < 16 := by
  unfold hexDigitVal at h
  simp only [show Char.toNat '0' = 48 from rfl, show Char.toNat '9' = 57 from rfl,
    show Char.toNat 'a' = 97 from rfl, show Char.toNat 'f' = 102 from rfl,
    show Char.toNat 'A' = 65 from rfl, show Char.toNat 'F' = 70 from rfl] at h
  split_ifs at h with h1 h2 h3 <;> simp only [Option.some.injEq] at h <;> omega

theorem hexDigitVal_nul : hexDigitVal nul = none := by decide

theorem hexDigitVal_ne_nul {c : Char} {d : Nat} (h : hexDigitVal c = some d) :
    ¬c = nul := by
  intro e
  rw [e, hexDigitVal_nul] at h
  exact Option.noConfusion h

theorem lor_shift4 (r d : Nat) (h : d < 16) : (r <<< 4) ||| d = 16 * r + d := by
  apply Nat.eq_of_testBit_eq
  intro i
  rw [Nat.testBit_lor, Nat.testBit_shiftLeft]
  rcases Nat.lt_or_ge i 4 with hi | hi
  · have h1 : decide (i ≥ 4) = false := by simp [Nat.not_le.mpr hi]
    rw [h1, Bool.false_and, Bool.false_or]
    interval_cases i <;>
      simp only [Nat.testBit_to_div_mod] <;> exact decide_eq_decide.mpr (by omega)
  · have hpow : (16 : Nat) ≤ 2 ^ i := by
      calc (16 : Nat) = 2 ^ 4 := rfl
      _ ≤ 2 ^ i := Nat.pow_le_pow_right (by omega) hi
    have h2 : d.testBit i = false := Nat.testBit_lt_two_pow (lt_of_lt_of_le h hpow)
    have h3 : decide (i ≥ 4) = true := by simp [hi]
    rw [h2, Bool.or_false, h3, Bool.true_and]
    obtain ⟨j, rfl⟩ : ∃ j, i = j + 4 := ⟨i - 4, by omega⟩
    have h16 : (16 * r + d) / 2 ^ (j + 4) = r / 2 ^ j := by
      have e1 : (2 : Nat) ^ (j + 4) = 16 * 2 ^ j := by rw [Nat.pow_add]; ring
      rw [e1, ← Nat.div_div_eq_div_mul, Nat.mul_add_div (by omega),
        Nat.div_eq_of_lt h, Nat.add_zero]
    simp only [Nat.testBit_to_div_mod, Nat.add_sub_cancel, h16]

/-- C3: every 6-character string of hex digits parses to the big-endian
byte-pair value: chars 0-1 are the red byte, 2-3 the green byte, 4-5 the
blue byte. -/
theorem c3_parseHexColor_six_hex
    (c0 c1 c2 c3 c4 c5 : Char) (d0 d1 d2 d3 d4 d5 : Nat)
    (h0 : hexDigitVal c0 = some d0) (h1 : hexDigitVal c1 = some d1)
    (h2 : hexDigitVal c2 = some d2) (h3 : hexDigitVal c3 = some d3)
    (h4 : hexDigitVal c4 = some d4) (h5 : hexDigitVal c5 = some d5) :
    parseHexColor (some [c0, c1, c2, c3, c4, c5]) =
      some (65536 * (16 * d0 + d1) + 256 * (16 * d2 + d3) + (16 * d4 + d5)) := by
  have n0 := hexDigitVal_ne_nul h0
  have n1 := hexDigitVal_ne_nul h1
  have n2 := hexDigitVal_ne_nul h2
  have n3 := hexDigitVal_ne_nul h3
  have n4 := hexDigitVal_ne_nul h4
  have n5 := hexDigitVal_ne_nul h5
  have l0 := hexDigitVal_lt_16 h0
  have l1 := hexDigitVal_lt_16 h1
  have l2 := hexDigitVal_lt_16 h2
  have l3 := hexDigitVal_lt_16 h3
  have l4 := hexDigitVal_lt_16 h4
  have l5 := hexDigitVal_lt_16 h5
  simp only [parseHexColor, parseHexColorStr, parseHexLoop]
  norm_num [strAt, List.getD_cons_zero, List.getD_cons_succ, List.getD_nil,
    h0, h1, h2, h3, h4, h5, n0, n1, n2, n3, n4, n5]
  rw [lor_shift4 _ _ l1, lor_shift4 _ _ l2,
    lor_shift4 _ _ l3, lor_shift4 _ _ l4, lor_shift4 _ _ l5]
  ring

/-- C3 witness: both the lowercase and the uppercase spelling of magenta
parse to 0xFF00FF. -/
theorem c3_parseHexColor_six_hex_witness :
    parseHexColor (some ['f', 'f', '0', '0', 'f', 'f']) = some 0xFF00FF ∧
    parseHexColor (some ['F', 'F', '0', '0', 'F', 'F']) = some 0xFF00FF :=
  ⟨(c3_parseHexColor_six_hex 'f' 'f' '0' '0' 'f' 'f' 15 15 0 0 15 15
      (by decide) (by decide) (by decide) (by decide) (by decide) (by decide)).trans
      (by decide),
   (c3_parseHexColor_six_hex 'F' 'F' '0' '0' 'F' 'F' 15 15 0 0 15 15
      (by decide) (by decide) (by decide) (by decide) (by decide) (by decide)).trans
      (by decide)⟩

theorem parseHexLoop_isSome (s : List Char) :
    ∀ (k i r : Nat), (parseHexLoop s i k r).isSome = true ↔
      ∀ j, j < k → (hexDigitVal (strAt s (i + j))).isSome = true := by
  intro k
  induction k with
  | zero => intro i r; simp [parseHexLoop]
  | succ k ih =>
    intro i r
    by_cases hn : strAt s i = nul
    · have hder : hexDigitVal (strAt s i) = none := by rw [hn]; exact hexDigitVal_nul
      simp only [parseHexLoop, hn, if_pos, if_true, Option.isSome_none]
      constructor
      · intro h; exact absurd h (by simp)
      · intro h
        have h0 := h 0 (by omega)
        rw [Nat.add_zero, hder] at h0
        exact absurd h0 (by simp)
    · cases hd : hexDigitVal (strAt s i) with
      | none =>
        simp only [parseHexLoop, if_neg hn, hd, Option.isSome_none]
        constructor
        · intro h; exact absurd h (by simp)
        · intro h
          have h0 := h 0 (by omega)
          rw [Nat.add_zero, hd] at h0
          exact absurd h0 (by simp)
      | some d =>
        simp only [parseHexLoop, if_neg hn, hd]
        rw [ih (i + 1)]
        constructor
        · intro h j hj
          cases j with
          | zero => rw [Nat.add_zero, hd]; rfl
          | succ j =>
            have := h j (by omega)
            rwa [show i + 1 + j = i + (j + 1) by omega] at this
        · intro h j hj
          have := h (j + 1) (by omega)
          rwa [show i + (j + 1) = i + 1 + j by omega] at this

theorem parseHexColorStr_isSome (s : List Char) :
    (parseHexColorStr s).isSome = true ↔
      (∀ j, j < 6 → (hexDigitVal (strAt s j)).isSome = true) ∧ strAt s 6 = nul := by
  unfold parseHexColorStr
  rcases h : parseHexLoop s 0 6 0 with _ | r
  · have hx := (parseHexLoop_isSome s 6 0 0)
    rw [h] at hx
    simp only [Option.isSome_none] at hx ⊢
    constructor
    · intro hc; exact absurd hc (by simp)
    · intro hc
      have := hx.mpr (by intro j hj; have := hc.1 j hj; rwa [Nat.zero_add])
      exact absurd this (by simp)
  · have hx := (parseHexLoop_isSome s 6 0 0)
    rw [h] at hx
    simp only [Option.isSome_some, true_iff] at hx
    by_cases h6 : strAt s 6 = nul
    · simp only [h6, if_pos, Option.isSome_some, true_iff, if_true]
      refine ⟨?_, trivial⟩
      intro j hj
      have := hx j hj
      rwa [Nat.zero_add] at this
    · simp only [if_neg h6, Option.isSome_none]
      constructor
      · intro hc; exact absurd hc (by simp)
      · intro hc; exact absurd hc.2 h6

theorem strAt_of_lt {s : List Char} {j : Nat} (h : j < s.length) :
    strAt s j = s.get ⟨j, h⟩ := by
  simp [strAt, List.getD_eq_getElem?_getD, List.getElem?_eq_getElem h]

theorem strAt_of_ge {s : List Char} {j : Nat} (h : s.length ≤ j) :
    strAt s j = nul := by
  simp [strAt, List.getD_eq_getElem?_getD, List.getElem?_eq_none h]

/-- C4: `parseHexColor` rejects the null pointer, and on a C string
(a character list with no embedded terminator) it succeeds exactly when
the string has length 6 and every character is a hex digit; any other
length (including a premature terminator, i.e. a shorter list) or any
non-hex character fails. -/
theorem c4_parseHexColor_reject :
    parseHexColor none = none ∧
    ∀ s : List Char, nul ∉ s →
      ((parseHexColor (some s)).isSome = true ↔
        s.length = 6 ∧ ∀ c ∈ s, (hexDigitVal c).isSome = true) := by
  refine ⟨rfl, fun s hs => ?_⟩
  show (parseHexColorStr s).isSome = true ↔ _
  rw [parseHexColorStr_isSome]
  constructor
  · rintro ⟨hall, h6⟩
    have hge : 6 ≤ s.length := by
      by_contra hlt
      push_neg at hlt
      have h5 := hall 5 (by omega)
      rw [strAt_of_ge (by omega), hexDigitVal_nul] at h5
      exact absurd h5 (by simp)
    have hle : s.length ≤ 6 := by
      by_contra hgt
      push_neg at hgt
      rw [strAt_of_lt hgt] at h6
      exact hs (h6 ▸ List.get_mem s 6 hgt)
    have hlen : s.length = 6 := by omega
    refine ⟨hlen, fun c hc => ?_⟩
    obtain ⟨j, hj, rfl⟩ := List.mem_iff_get.mp hc
    have := hall j (by omega)
    rwa [strAt_of_lt j.isLt] at this
  · rintro ⟨hlen, hall⟩
    refine ⟨fun j hj => ?_, strAt_of_ge (by omega)⟩
    rw [strAt_of_lt (by omega)]
    exact hall _ (List.get_mem s j (by omega))

/-- C4 witness: the three failures named by the spec, plus the null
pointer. -/
theorem c4_parseHexColor_reject_witness :
    parseHexColor (some ['f', 'f', 'f']) = none ∧
    parseHexColor (some ['g', 'g', '0', '0', '0', '0']) = none ∧
    parseHexColor none = none := by
  refine ⟨?_, ?_, c4_parseHexColor_reject.1⟩
  · rcases hp : parseHexColor (some ['f', 'f', 'f']) with _ | v
    · rfl
    · have h := (c4_parseHexColor_reject.2 ['f', 'f', 'f'] (by decide)).mp
        (by rw [hp]; rfl)
      exact absurd h.1 (by decide)
  · rcases hp : parseHexColor (some ['g', 'g', '0', '0', '0', '0']) with _ | v
    · rfl
    · have h := (c4_parseHexColor_reject.2 ['g', 'g', '0', '0', '0', '0']
        (by decide)).mp (by rw [hp]; rfl)
      exact absurd (h.2 'g' (by decide)) (by decide)

/-- C9: whenever `parseHexColor` fails, the out-parameter `value` keeps
the content it had before the call: the result is written only after the
six characters and the terminator have been checked. -/
theorem c9_out_param_unchanged_on_failure (hex : Option (List Char)) (v : Nat)
    (h : (parseHexColorOut hex v).1 = false) : (parseHexColorOut hex v).2 = v := by
  rcases hex with _ | s
  · rfl
  · have hmain : parseHexColorOut (some s) v =
        (match parseHexLoop s 0 6 0 with
          | none => (false, v)
          | some result =>
            if strAt s 6 = nul then (true, result) else (false, v)) := rfl
    rw [hmain] at h ⊢
    rcases hl : parseHexLoop s 0 6 0 with _ | r
    · rfl
    · rw [hl] at h
      have h' : (if strAt s 6 = nul then ((true, r) : Bool × Nat)
        else (false, v)).1 = false := h
      by_cases h6 : strAt s 6 = nul
      · rw [if_pos h6] at h'
        exact Bool.noConfusion h'
      · show (if strAt s 6 = nul then ((true, r) : Bool × Nat)
          else (false, v)).2 = v
        rw [if_neg h6]

/-- C9 witness: a failed parse of `"fff"` leaves a prior value 7 intact. -/
theorem c9_out_param_unchanged_on_failure_witness :
    (parseHexColorOut (some ['f', 'f', 'f']) 7).2 = 7 :=
  c9_out_param_unchanged_on_failure (some ['f', 'f', 'f']) 7 (by decide)

end SolderGoggles
namespace SolderGoggles

theorem wsEvent_next_eq (s : CState) :
    wsEvent s "next".toList =
      some ({ s with currentPreset := nextPresetIdx s.currentPreset s.presets.length }, false) := rfl

theorem wsEvent_prev_eq (s : CState) :
    wsEvent s "prev".toList =
      some ({ s with currentPreset := previousPresetIdx s.currentPreset s.presets.length }, false) := rfl

theorem wsEvent_set_eq (s : CState) (arg : List Char) :
    wsEvent s ("set:".toList ++ arg) =
      (if allDigits arg then
        match stoiDigits arg with
        | none => none
        | some idx =>
          if 0 ≤ idx ∧ idx < (s.presets.length : Int) then
            some ({ s with currentPreset := idx }, true)
          else some (s, false)
      else some (s, false)) := rfl

theorem wsEvent_bright_eq (s : CState) (arg : List Char) :
    wsEvent s ("bright:".toList ++ arg) =
      (if allDigits arg then
        match stoiDigits arg with
        | none => none
        | some val =>
          if 0 ≤ val ∧ val ≤ 255 then
            some ({ s with brightness := val.toNat }, true)
          else some (s, false)
      else some (s, false)) := rfl

theorem wsEvent_color_eq (s : CState) (arg : List Char) :
    wsEvent s ("color:".toList ++ arg) =
      (if arg.length = 7 ∧ arg.head? = some '#' then
        match parseHexColor (some (arg.drop 1)) with
        | some val => some (setCurrentColor s val, true)
        | none => some (s, false)
      else some (s, false)) := rfl

theorem wsEvent_speed_eq (s : CState) (arg : List Char) :
    wsEvent s ("speed:".toList ++ arg) =
      (if allDigits arg then
        match stoiDigits arg with
        | none => none
        | some val =>
          if 0 < val then some ({ s with animInterval := val.toNat }, false)
          else some (s, false)
      else some (s, false)) := rfl

theorem wsEvent_leds_eq (s : CState) (data : List Char) :
    wsEvent s ("leds:".toList ++ data) =
      (match ledsLoop 0 data (List.replicate NUM_LEDS 0) with
      | some temp => some (setCurrentLeds s temp, true)
      | none => some (s, false)) := rfl

theorem wsEventB_next_eq (s : CState) :
    wsEventB s "next".toList =
      some ({ s with currentPreset := nextPresetIdx s.currentPreset s.presets.length }, true) := rfl

theorem wsEventB_prev_eq (s : CState) :
    wsEventB s "prev".toList =
      some ({ s with currentPreset := previousPresetIdx s.currentPreset s.presets.length }, true) := rfl

theorem nextPresetIdx_eq {i : Int} {len : Nat} (h0 : 0 ≤ i)
    (h1 : i < (len : Int)) (h2 : (len : Int) ≤ INT_MAX) :
    nextPresetIdx i len = (i + 1) % (len : Int) := by
  have hU : USIZE = 18446744073709551616 := rfl
  have hM : INT_MAX = 2147483647 := rfl
  rw [hM] at h2
  unfold nextPresetIdx
  rw [Int.emod_eq_of_lt (a := i + 1) (b := USIZE) (by omega) (by rw [hU]; omega)]

theorem previousPresetIdx_eq {i : Int} {len : Nat} (h0 : 0 ≤ i)
    (h1 : i < (len : Int)) (h2 : (len : Int) ≤ INT_MAX) :
    previousPresetIdx i len = (i - 1 + (len : Int)) % (len : Int) := by
  have hU : USIZE = 18446744073709551616 := rfl
  have hM : INT_MAX = 2147483647 := rfl
  rw [hM] at h2
  unfold previousPresetIdx
  rcases eq_or_lt_of_le h0 with hz | hpos
  · rw [← hz]
    have hm1 : ((0 : Int) - 1) % USIZE = USIZE - 1 := by decide
    rw [hm1]
    have e1 : USIZE - 1 + (len : Int) = ((len : Int) - 1) + USIZE * 1 := by ring
    rw [e1, Int.add_mul_emod_self_left,
      Int.emod_eq_of_lt (a := (len : Int) - 1) (b := USIZE) (by omega)
        (by rw [hU]; omega)]
    have e2 : (0 : Int) - 1 + (len : Int) = (len : Int) - 1 := by ring
    rw [e2]
  · rw [Int.emod_eq_of_lt (a := i - 1) (b := USIZE) (by omega)
        (by rw [hU]; omega),
      Int.emod_eq_of_lt (a := i - 1 + (len : Int)) (b := USIZE) (by omega)
        (by rw [hU]; omega)]

theorem wsEvent_inv_step {s s' : CState} {m : List Char} {b : Bool}
    (hinv : Inv s) (h : wsEvent s m = some (s', b)) :
    Inv s' ∧ s'.presets.length = s.presets.length := by
  obtain ⟨hi0, hi1⟩ := hinv
  have hlen : 0 < s.presets.length := by omega
  have hne : (s.presets.length : Int) ≠ 0 := by omega
  have hpos : (0 : Int) < (s.presets.length : Int) := by omega
  have e1 : 0 ≤ nextPresetIdx s.currentPreset s.presets.length :=
    Int.emod_nonneg _ hne
  have e2 : nextPresetIdx s.currentPreset s.presets.length <
      (s.presets.length : Int) := Int.emod_lt_of_pos _ hpos
  have e3 : 0 ≤ previousPresetIdx s.currentPreset s.presets.length :=
    Int.emod_nonneg _ hne
  have e4 : previousPresetIdx s.currentPreset s.presets.length <
      (s.presets.length : Int) := Int.emod_lt_of_pos _ hpos
  unfold wsEvent at h
  split at h
  · rw [Option.some.injEq, Prod.mk.injEq] at h
    obtain ⟨h1, h2⟩ := h
    subst h1
    exact ⟨⟨e1, e2⟩, rfl⟩
  · split at h
    · rw [Option.some.injEq, Prod.mk.injEq] at h
      obtain ⟨h1, h2⟩ := h
      subst h1
      exact ⟨⟨e3, e4⟩, rfl⟩
    · split at h
      · -- set:
        split at h
        · split at h
          · exact Option.noConfusion h
          · rename_i idx hstoi
            split at h
            · rename_i hguard
              rw [Option.some.injEq, Prod.mk.injEq] at h
              obtain ⟨h1, h2⟩ := h
              subst h1
              exact ⟨⟨hguard.1, hguard.2⟩, rfl⟩
            · rw [Option.some.injEq, Prod.mk.injEq] at h
              obtain ⟨h1, h2⟩ := h
              subst h1
              exact ⟨⟨hi0, hi1⟩, rfl⟩
        · rw [Option.some.injEq, Prod.mk.injEq] at h
          obtain ⟨h1, h2⟩ := h
          subst h1
          exact ⟨⟨hi0, hi1⟩, rfl⟩
      · split at h
        · -- bright:
          split at h
          · split at h
            · exact Option.noConfusion h
            · split at h
              · rw [Option.some.injEq, Prod.mk.injEq] at h
                obtain ⟨h1, h2⟩ := h
                subst h1
                exact ⟨⟨hi0, hi1⟩, rfl⟩
              · rw [Option.some.injEq, Prod.mk.injEq] at h
                obtain ⟨h1, h2⟩ := h
                subst h1
                exact ⟨⟨hi0, hi1⟩, rfl⟩
          · rw [Option.some.injEq, Prod.mk.injEq] at h
            obtain ⟨h1, h2⟩ := h
            subst h1
            exact ⟨⟨hi0, hi1⟩, rfl⟩
        · split at h
          · -- color:
            split at h
            · split at h
              · rw [Option.some.injEq, Prod.mk.injEq] at h
                obtain ⟨h1, h2⟩ := h
                subst h1
                refine ⟨⟨hi0, ?_⟩, ?_⟩ <;>
                  simp [setCurrentColor, List.length_set, hi1]
              · rw [Option.some.injEq, Prod.mk.injEq] at h
                obtain ⟨h1, h2⟩ := h
                subst h1
                exact ⟨⟨hi0, hi1⟩, rfl⟩
            · rw [Option.some.injEq, Prod.mk.injEq] at h
              obtain ⟨h1, h2⟩ := h
              subst h1
              exact ⟨⟨hi0, hi1⟩, rfl⟩
          · split at h
            · -- speed:
              split at h
              · split at h
                · exact Option.noConfusion h
                · split at h
                  · rw [Option.some.injEq, Prod.mk.injEq] at h
                    obtain ⟨h1, h2⟩ := h
                    subst h1
                    exact ⟨⟨hi0, hi1⟩, rfl⟩
                  · rw [Option.some.injEq, Prod.mk.injEq] at h
                    obtain ⟨h1, h2⟩ := h
                    subst h1
                    exact ⟨⟨hi0, hi1⟩, rfl⟩
              · rw [Option.some.injEq, Prod.mk.injEq] at h
                obtain ⟨h1, h2⟩ := h
                subst h1
                exact ⟨⟨hi0, hi1⟩, rfl⟩
            · split at h
              · -- leds:
                split at h
                · rw [Option.some.injEq, Prod.mk.injEq] at h
                  obtain ⟨h1, h2⟩ := h
                  subst h1
                  refine ⟨⟨hi0, ?_⟩, ?_⟩ <;>
                    simp [setCurrentLeds, List.length_set, hi1]
                · rw [Option.some.injEq, Prod.mk.injEq] at h
                  obtain ⟨h1, h2⟩ := h
                  subst h1
                  exact ⟨⟨hi0, hi1⟩, rfl⟩
              · rw [Option.some.injEq, Prod.mk.injEq] at h
                obtain ⟨h1, h2⟩ := h
                subst h1
                exact ⟨⟨hi0, hi1⟩, rfl⟩

/-- C6: starting from a startup state (non-empty preset list, index 0),
any sequence of commands that returns normally leaves
`currentPresetIndex` inside `[0, presets.length)`. -/
theorem c6_index_invariant (msgs : List (List Char)) (s0 s1 : CState)
    (hlen : 0 < s0.presets.length) (hidx : s0.currentPreset = 0)
    (h : runMsgs s0 msgs = some s1) : Inv s1 := by
  have hinv : Inv s0 := ⟨by rw [hidx], by rw [hidx]; exact_mod_cast hlen⟩
  clear hidx hlen
  induction msgs generalizing s0 with
  | nil =>
    have : s0 = s1 := by simpa [runMsgs] using h
    rwa [← this]
  | cons m ms ih =>
    unfold runMsgs at h
    rcases hw : wsEvent s0 m with _ | r
    · rw [hw] at h; exact absurd h (by simp)
    · rw [hw] at h
      exact ih r.1 h (wsEvent_inv_step hinv (by rw [hw])).1

/-- C6 witness: a concrete run from the startup state keeps the index in
range. -/
theorem c6_index_invariant_witness :
    Inv ⟨List.replicate 3 defaultPreset, 1, 128, 50⟩ :=
  c6_index_invariant
    ["next".toList, "set:2".toList, "prev".toList, "bright:128".toList,
      "bogus".toList]
    initState ⟨List.replicate 3 defaultPreset, 1, 128, 50⟩
    (by decide) rfl (by decide)

theorem ledsLoop_nil (idx : Nat) (temp : List Nat) :
    ledsLoop idx [] temp = some temp := by
  rw [ledsLoop]
  simp

/-- C10: the bare `leds:` command (empty argument) is accepted: the
zero-initialised scratch buffer is committed wholesale, so the current
preset's pixels all become 0 (black), and the notification fires. -/
theorem c10_leds_empty_commits (s : CState) :
    wsEvent s "leds:".toList =
      some (setCurrentLeds s (List.replicate NUM_LEDS 0), true) := by
  have h := wsEvent_leds_eq s []
  rw [List.append_nil] at h
  rw [h, ledsLoop_nil]

/-- C1: the totality claim fails on the code: an all-digit `set:` argument
whose value exceeds the `int` range makes `std::stoi` throw
`std::out_of_range`, which escapes `wsEvent` (modelled as `none`), so
`handleCommand` does not return normally on every byte sequence. -/
theorem c1_set_overflow_crashes :
    wsEvent initState "set:99999999999999999999".toList = none := by decide

/-- C5 counterexample: on the dispatcher of `test_ws_event.cpp`, `next`
from the startup state moves the index to 1 but fires no
`applyPreset()` notification, contradicting the claimed
"notifies exactly once". -/
theorem c5_next_counterexample :
    wsEvent initState "next".toList =
      some ({ initState with currentPreset := 1 }, false) := by decide

/-- C5 (amended): for every state satisfying the index invariant (and a
preset count representable as `int`), `next` sets the index to
`(i + 1) mod len` and `prev` to `(i - 1 + len) mod len` in both
dispatcher variants; the `test_wsEvent.cpp` variant notifies exactly
once, while the `test_ws_event.cpp` dispatcher does not notify on
`next`/`prev`. -/
theorem c5_next_prev_update (s : CState) (h0 : 0 ≤ s.currentPreset)
    (h1 : s.currentPreset < (s.presets.length : Int))
    (h2 : (s.presets.length : Int) ≤ INT_MAX) :
    wsEvent s "next".toList =
      some ({ s with currentPreset :=
        (s.currentPreset + 1) % (s.presets.length : Int) }, false) ∧
    wsEvent s "prev".toList =
      some ({ s with currentPreset :=
        (s.currentPreset - 1 + (s.presets.length : Int)) %
          (s.presets.length : Int) }, false) ∧
    wsEventB s "next".toList =
      some ({ s with currentPreset :=
        (s.currentPreset + 1) % (s.presets.length : Int) }, true) ∧
    wsEventB s "prev".toList =
      some ({ s with currentPreset :=
        (s.currentPreset - 1 + (s.presets.length : Int)) %
          (s.presets.length : Int) }, true) := by
  rw [wsEvent_next_eq, wsEvent_prev_eq, wsEventB_next_eq, wsEventB_prev_eq,
    nextPresetIdx_eq h0 h1 h2, previousPresetIdx_eq h0 h1 h2]
  exact ⟨rfl, rfl, rfl, rfl⟩

/-- C5 witness: at the startup state, `next` moves 0 to 1 in both
variants; only the `test_wsEvent.cpp` variant notifies. -/
theorem c5_next_prev_update_witness :
    wsEvent initState "next".toList =
      some ({ initState with currentPreset := 1 }, false) ∧
    wsEventB initState "next".toList =
      some ({ initState with currentPreset := 1 }, true) := by
  have h := c5_next_prev_update initState (by decide) (by decide) (by decide)
  exact ⟨h.1.trans (by decide), h.2.2.1.trans (by decide)⟩

/-- C8 counterexample: an all-digit `speed:` argument with value above
the `int` range does not set the interval but makes `std::stoi` throw
(modelled as `none`), refuting the claim for that argument. -/
theorem c8_speed_overflow_counterexample :
    wsEvent initState "speed:99999999999999999999".toList = none := by decide

/-- C8 (amended): an all-digit `speed:` argument with value `n`,
`0 < n ≤ INT_MAX`, sets `animationIntervalMs` to `n` without notifying;
`speed:0` and non-digit arguments leave the interval unchanged and do
not notify (all-digit values above `INT_MAX` throw instead). -/
theorem c8_speed_behavior (s : CState) (arg : List Char) :
    (allDigits arg = true → 0 < digitsToNat arg →
      (digitsToNat arg : Int) ≤ INT_MAX →
      wsEvent s ("speed:".toList ++ arg) =
        some ({ s with animInterval := digitsToNat arg }, false)) ∧
    (allDigits arg = true → digitsToNat arg = 0 →
      wsEvent s ("speed:".toList ++ arg) = some (s, false)) ∧
    (allDigits arg = false →
      wsEvent s ("speed:".toList ++ arg) = some (s, false)) := by
  refine ⟨fun hd hpos hle => ?_, fun hd hz => ?_, fun hd => ?_⟩
  · rw [wsEvent_speed_eq, if_pos hd]
    unfold stoiDigits
    rw [if_neg (by omega)]
    show (if 0 < ((digitsToNat arg : Nat) : Int) then
        some ({ s with animInterval := ((digitsToNat arg : Nat) : Int).toNat },
          false)
      else some (s, false)) = _
    rw [if_pos (by exact_mod_cast hpos), Int.toNat_natCast]
  · rw [wsEvent_speed_eq, if_pos hd]
    unfold stoiDigits
    rw [if_neg (by simp [hz]; decide)]
    show (if 0 < ((digitsToNat arg : Nat) : Int) then
        some ({ s with animInterval := ((digitsToNat arg : Nat) : Int).toNat },
          false)
      else some (s, false)) = some (s, false)
    rw [if_neg (by simp [hz])]
  · rw [wsEvent_speed_eq, if_neg (by simp [hd])]

/-- C8 witness: `speed:123` sets the interval to 123 without notifying;
`speed:0` and `speed:abc` are no-ops without notification. -/
theorem c8_speed_behavior_witness :
    wsEvent initState ("speed:".toList ++ "123".toList) =
      some ({ initState with animInterval := 123 }, false) ∧
    wsEvent initState ("speed:".toList ++ "0".toList) =
      some (initState, false) ∧
    wsEvent initState ("speed:".toList ++ "abc".toList) =
      some (initState, false) := by
  have h1 := c8_speed_behavior initState "123".toList
  have h2 := c8_speed_behavior initState "0".toList
  have h3 := c8_speed_behavior initState "abc".toList
  exact ⟨(h1.1 (by decide) (by decide) (by decide)).trans (by decide),
    h2.2.1 (by decide) (by decide), h3.2.2 (by decide)⟩

end SolderGoggles
namespace SolderGoggles

theorem splitTokens_nil : splitTokens [] = [] := by
  rw [splitTokens]
  simp

theorem splitTokens_cons {data : List Char} (h : data ≠ []) :
    splitTokens data =
      (data.takeWhile (fun c => c ≠ ',')) ::
        splitTokens ((data.dropWhile (fun c => c ≠ ',')).drop 1) := by
  rw [splitTokens]
  simp [h]

theorem ledsLoop_stop {idx : Nat} {data : List Char} {temp : List Nat}
    (h : ¬(idx < NUM_LEDS ∧ data ≠ [])) :
    ledsLoop idx data temp = if data = [] then some temp else none := by
  rw [ledsLoop, dif_neg h]

theorem ledsLoop_step {idx : Nat} {data : List Char} {temp : List Nat}
    (h1 : idx < NUM_LEDS) (h2 : data ≠ []) :
    ledsLoop idx data temp =
      (match parseHexColor (some (stripHash (data.takeWhile (fun c => c ≠ ',')))) with
      | some v =>
        ledsLoop (idx + 1) ((data.dropWhile (fun c => c ≠ ',')).drop 1)
          (temp.set idx v)
      | none => none) := by
  rw [ledsLoop, dif_pos ⟨h1, h2⟩]

theorem rest_length_lt {data : List Char} (h : data ≠ []) :
    ((data.dropWhile (fun c => c ≠ ',')).drop 1).length < data.length := by
  have hle := (List.dropWhile_sublist (l := data) (p := fun c => c ≠ ',')).length_le
  have hpos : 0 < data.length := List.length_pos.mpr h
  simp only [List.length_drop]
  omega

theorem ledsLoop_characterize :
    ∀ (n : Nat) (data : List Char), data.length ≤ n →
    ∀ (idx : Nat) (temp : List Nat), idx ≤ NUM_LEDS →
    ledsLoop idx data temp =
      (if (∀ t ∈ splitTokens data, tokenOk t = true) ∧
          idx + (splitTokens data).length ≤ NUM_LEDS then
        some (writeVals temp idx ((splitTokens data).map tokVal))
      else none) := by
  intro n
  induction n with
  | zero =>
    intro data hlen idx temp hidx
    have hdata : data = [] := List.eq_nil_of_length_eq_zero (by omega)
    subst hdata
    rw [ledsLoop_nil, splitTokens_nil]
    rw [if_pos ⟨by simp, by simpa using hidx⟩]
    rfl
  | succ n ih =>
    intro data hlen idx temp hidx
    by_cases hne : data = []
    · subst hne
      rw [ledsLoop_nil, splitTokens_nil]
      rw [if_pos ⟨by simp, by simpa using hidx⟩]
      rfl
    · rw [splitTokens_cons hne]
      by_cases h13 : idx < NUM_LEDS
      · rw [ledsLoop_step h13 hne]
        rcases hp : parseHexColor
            (some (stripHash (data.takeWhile (fun c => c ≠ ',')))) with _ | v
        · rw [if_neg]
          rintro ⟨hall, _⟩
          have := hall (data.takeWhile (fun c => c ≠ ',')) (by simp)
          rw [tokenOk, hp] at this
          exact absurd this (by simp)
        · dsimp only
          have hrest : ((data.dropWhile (fun c => c ≠ ',')).drop 1).length ≤ n := by
            have := rest_length_lt hne
            omega
          rw [ih _ hrest (idx + 1) (temp.set idx v) (by omega)]
          by_cases hc : (∀ t ∈ splitTokens ((data.dropWhile (fun c => c ≠ ',')).drop 1),
              tokenOk t = true) ∧
              (idx + 1) + (splitTokens ((data.dropWhile (fun c => c ≠ ',')).drop 1)).length ≤
                NUM_LEDS
          · rw [if_pos hc, if_pos]
            · have hv : tokVal (data.takeWhile (fun c => c ≠ ',')) = v := by
                rw [tokVal, hp]; rfl
              simp only [List.map_cons, hv]
              rfl
            · constructor
              · intro t ht
                rcases List.mem_cons.mp ht with rfl | hmem
                · rw [tokenOk, hp]; rfl
                · exact hc.1 t hmem
              · simp only [List.length_cons]
                omega
          · rw [if_neg hc, if_neg]
            intro hfull
            apply hc
            constructor
            · intro t ht
              exact hfull.1 t (List.mem_cons_of_mem _ ht)
            · have := hfull.2
              simp only [List.length_cons] at this
              omega
      · rw [ledsLoop_stop (by intro hx; exact h13 hx.1), if_neg hne, if_neg]
        intro hfull
        have := hfull.2
        simp only [List.length_cons] at this
        omega

theorem writeVals_eq_take_append :
    ∀ (vs : List Nat) (temp : List Nat) (idx : Nat),
      idx + vs.length ≤ temp.length →
      writeVals temp idx vs =
        temp.take idx ++ vs ++ temp.drop (idx + vs.length) := by
  intro vs
  induction vs with
  | nil =>
    intro temp idx h
    simp only [writeVals, List.length_nil, Nat.add_zero, List.nil_append,
      List.append_nil]
    rw [List.take_append_drop]
  | cons v vs ih =>
    intro temp idx h
    simp only [writeVals, List.length_cons] at h ⊢
    have hlt : idx < temp.length := by omega
    rw [ih (temp.set idx v) (idx + 1) (by rw [List.length_set]; omega)]
    rw [List.drop_set_of_lt _ _ (by omega)]
    have hset : temp.set idx v = temp.take idx ++ v :: temp.drop (idx + 1) := by
      rw [List.set_eq_take_append_cons_drop, if_pos hlt]
    rw [hset, List.take_append_eq_append_take]
    have hA : (temp.take idx).length = idx := by rw [List.length_take]; omega
    rw [hA, List.take_of_length_le (by omega), show idx + 1 - idx = 1 by omega,
      show (1 : Nat) = 0 + 1 by omega, List.take_succ_cons, List.take_zero]
    simp only [List.append_assoc, List.cons_append, List.nil_append,
      List.singleton_append]
    rw [show idx + 1 + vs.length = idx + (vs.length + 1) by omega]

theorem writeVals_replicate {vs : List Nat} (h : vs.length ≤ NUM_LEDS) :
    writeVals (List.replicate NUM_LEDS 0) 0 vs =
      vs ++ List.replicate (NUM_LEDS - vs.length) 0 := by
  rw [writeVals_eq_take_append vs _ 0 (by simp [h])]
  simp [List.drop_replicate]

/-- C2: the `leds:` update is all-or-nothing: if any comma-separated
token fails to parse, the state (in particular the current preset's
pixel sequence) is left unchanged and no notification fires; and
whenever the command does notify, every token parsed and the pixel
sequence was replaced wholesale by the token values padded with zeros. -/
theorem c2_leds_atomic (s : CState) (data : List Char) :
    ((∃ t ∈ splitTokens data, tokenOk t = false) →
      wsEvent s ("leds:".toList ++ data) = some (s, false)) ∧
    (∀ s' b, wsEvent s ("leds:".toList ++ data) = some (s', b) → b = true →
      (∀ t ∈ splitTokens data, tokenOk t = true) ∧
      s' = setCurrentLeds s (paddedVals data)) := by
  rw [wsEvent_leds_eq,
    ledsLoop_characterize data.length data (le_refl _) 0
      (List.replicate NUM_LEDS 0) (Nat.zero_le _)]
  constructor
  · rintro ⟨t, ht, htok⟩
    rw [if_neg]
    · rintro ⟨hall, _⟩
      rw [hall t ht] at htok
      exact Bool.noConfusion htok
  · intro s' b h hb
    by_cases hc : (∀ t ∈ splitTokens data, tokenOk t = true) ∧
        0 + (splitTokens data).length ≤ NUM_LEDS
    · rw [if_pos hc] at h
      simp only [Option.some.injEq, Prod.mk.injEq] at h
      obtain ⟨h1, h2⟩ := h
      refine ⟨hc.1, ?_⟩
      rw [← h1]
      rw [paddedVals]
      congr 1
      rw [writeVals_replicate (by have := hc.2; simpa using this)]
      rw [List.length_map]
    · rw [if_neg hc] at h
      simp only [Option.some.injEq, Prod.mk.injEq] at h
      obtain ⟨h1, h2⟩ := h
      rw [← h2] at hb
      exact Bool.noConfusion hb

/-- C2 witness: `leds:#zzzzzz` leaves the state untouched without
notifying, and on `leds:#010203` (which notifies) every token parses. -/
theorem c2_leds_atomic_witness :
    wsEvent initState ("leds:".toList ++ "#zzzzzz".toList) =
      some (initState, false) ∧
    (∀ t ∈ splitTokens "#010203".toList, tokenOk t = true) := by
  have hz : splitTokens "#zzzzzz".toList = ["#zzzzzz".toList] := by
    have h1 : splitTokens "#zzzzzz".toList =
        "#zzzzzz".toList :: splitTokens [] := splitTokens_cons (by decide)
    rw [h1, splitTokens_nil]
  have e1 : ledsLoop 0 "#010203".toList (List.replicate NUM_LEDS 0) =
      some ((List.replicate NUM_LEDS 0).set 0 66051) := by
    rw [ledsLoop_step (by decide) (by decide)]
    show ledsLoop (0 + 1) [] ((List.replicate NUM_LEDS 0).set 0 66051) = _
    rw [ledsLoop_nil]
  have h : wsEvent initState ("leds:".toList ++ "#010203".toList) =
      some (setCurrentLeds initState ((List.replicate NUM_LEDS 0).set 0 66051),
        true) := by
    rw [wsEvent_leds_eq, e1]
  constructor
  · refine (c2_leds_atomic initState "#zzzzzz".toList).1 ?_
    refine ⟨"#zzzzzz".toList, ?_, by decide⟩
    rw [hz]
    exact List.mem_singleton.mpr rfl
  · exact ((c2_leds_atomic initState "#010203".toList).2 _ true h rfl).1

theorem getD_set_self {l : List Preset} {i : Nat} {a d : Preset}
    (h : i < l.length) : (l.set i a).getD i d = a := by
  rw [List.getD_eq_getElem?_getD, List.getElem?_set_self']
  simp [List.getElem?_eq_getElem h]

theorem setCurrentColor_idem (s : CState) (v : Nat) :
    setCurrentColor (setCurrentColor s v) v = setCurrentColor s v := by
  unfold setCurrentColor
  dsimp only
  by_cases hi : s.currentPreset.toNat < s.presets.length
  · rw [getD_set_self hi]
    rw [List.set_set]
  · have hle : s.presets.length ≤ s.currentPreset.toNat := by omega
    rw [List.set_eq_of_length_le hle, List.set_eq_of_length_le hle]

theorem setCurrentLeds_idem (s : CState) (temp : List Nat) :
    setCurrentLeds (setCurrentLeds s temp) temp = setCurrentLeds s temp := by
  unfold setCurrentLeds
  dsimp only
  by_cases hi : s.currentPreset.toNat < s.presets.length
  · rw [getD_set_self hi]
    rw [List.set_set]
  · have hle : s.presets.length ≤ s.currentPreset.toNat := by omega
    rw [List.set_eq_of_length_le hle, List.set_eq_of_length_le hle]

/-- C7 counterexample: `next` is not idempotent: from the startup state,
processing `next` twice moves the index to 2 while processing it once
moves it to 1, so handleCommand(handleCommand(s, m), m) differs from
handleCommand(s, m). -/
theorem c7_next_not_idempotent :
    (wsEvent initState "next".toList).bind
        (fun r => wsEvent r.1 "next".toList) ≠
      wsEvent initState "next".toList := by decide

/-- C7 (amended): every command except the cyclic rotations `next` and
`prev` is idempotent: if processing `m` once succeeds with state `s'`
and notification flag `b`, processing `m` again from `s'` yields exactly
`(s', b)`. -/
theorem c7_idempotent_except_next_prev (s s' : CState) (b : Bool)
    (m : List Char) (hn : m ≠ "next".toList) (hp : m ≠ "prev".toList)
    (h : wsEvent s m = some (s', b)) : wsEvent s' m = some (s', b) := by
  unfold wsEvent at h ⊢
  rw [if_neg hn, if_neg hp] at h ⊢
  by_cases h4 : m.take 4 = "set:".toList
  · rw [if_pos h4] at h ⊢
    by_cases hd : allDigits (m.drop 4) = true
    · rw [if_pos hd] at h ⊢
      rcases hst : stoiDigits (m.drop 4) with _ | idx
      · rw [hst] at h
        exact Option.noConfusion h
      · rw [hst] at h
        dsimp only at h ⊢
        by_cases hg : 0 ≤ idx ∧ idx < (s.presets.length : Int)
        · rw [if_pos hg] at h
          simp only [Option.some.injEq, Prod.mk.injEq] at h
          obtain ⟨h1, h2⟩ := h
          subst h1
          subst h2
          dsimp only
          rw [if_pos hg]
        · rw [if_neg hg] at h
          simp only [Option.some.injEq, Prod.mk.injEq] at h
          obtain ⟨h1, h2⟩ := h
          subst h1
          subst h2
          rw [if_neg hg]
    · rw [if_neg hd] at h ⊢
      simp only [Option.some.injEq, Prod.mk.injEq] at h
      obtain ⟨h1, h2⟩ := h
      subst h1
      subst h2
      rfl
  · rw [if_neg h4] at h ⊢
    by_cases h7 : m.take 7 = "bright:".toList
    · rw [if_pos h7] at h ⊢
      by_cases hd : allDigits (m.drop 7) = true
      · rw [if_pos hd] at h ⊢
        rcases hst : stoiDigits (m.drop 7) with _ | val
        · rw [hst] at h
          exact Option.noConfusion h
        · rw [hst] at h
          dsimp only at h ⊢
          by_cases hg : 0 ≤ val ∧ val ≤ 255
          · rw [if_pos hg] at h
            simp only [Option.some.injEq, Prod.mk.injEq] at h
            obtain ⟨h1, h2⟩ := h
            subst h1
            subst h2
            dsimp only
            rw [if_pos hg]
          · rw [if_neg hg] at h
            simp only [Option.some.injEq, Prod.mk.injEq] at h
            obtain ⟨h1, h2⟩ := h
            subst h1
            subst h2
            rw [if_neg hg]
      · rw [if_neg hd] at h ⊢
        simp only [Option.some.injEq, Prod.mk.injEq] at h
        obtain ⟨h1, h2⟩ := h
        subst h1
        subst h2
        rfl
    · rw [if_neg h7] at h ⊢
      by_cases h6 : m.take 6 = "color:".toList
      · rw [if_pos h6] at h ⊢
        by_cases hc : (m.drop 6).length = 7 ∧ (m.drop 6).head? = some '#'
        · rw [if_pos hc] at h ⊢
          rcases hpc : parseHexColor (some ((m.drop 6).drop 1)) with _ | val
          · rw [hpc] at h
            dsimp only at h ⊢
            simp only [Option.some.injEq, Prod.mk.injEq] at h
            obtain ⟨h1, h2⟩ := h
            subst h1
            subst h2
            rfl
          · rw [hpc] at h
            dsimp only at h ⊢
            simp only [Option.some.injEq, Prod.mk.injEq] at h
            obtain ⟨h1, h2⟩ := h
            subst h1
            subst h2
            rw [setCurrentColor_idem]
        · rw [if_neg hc] at h ⊢
          simp only [Option.some.injEq, Prod.mk.injEq] at h
          obtain ⟨h1, h2⟩ := h
          subst h1
          subst h2
          rfl
      · rw [if_neg h6] at h ⊢
        by_cases h6s : m.take 6 = "speed:".toList
        · rw [if_pos h6s] at h ⊢
          by_cases hd : allDigits (m.drop 6) = true
          · rw [if_pos hd] at h ⊢
            rcases hst : stoiDigits (m.drop 6) with _ | val
            · rw [hst] at h
              exact Option.noConfusion h
            · rw [hst] at h
              dsimp only at h ⊢
              by_cases hg : 0 < val
              · rw [if_pos hg] at h
                simp only [Option.some.injEq, Prod.mk.injEq] at h
                obtain ⟨h1, h2⟩ := h
                subst h1
                subst h2
                dsimp only
                rw [if_pos hg]
              · rw [if_neg hg] at h
                simp only [Option.some.injEq, Prod.mk.injEq] at h
                obtain ⟨h1, h2⟩ := h
                subst h1
                subst h2
                rw [if_neg hg]
          · rw [if_neg hd] at h ⊢
            simp only [Option.some.injEq, Prod.mk.injEq] at h
            obtain ⟨h1, h2⟩ := h
            subst h1
            subst h2
            rfl
        · rw [if_neg h6s] at h ⊢
          by_cases h5 : m.take 5 = "leds:".toList
          · rw [if_pos h5] at h ⊢
            rcases hll : ledsLoop 0 (m.drop 5) (List.replicate NUM_LEDS 0) with _ | temp
            · rw [hll] at h
              dsimp only at h ⊢
              simp only [Option.some.injEq, Prod.mk.injEq] at h
              obtain ⟨h1, h2⟩ := h
              subst h1
              subst h2
              rfl
            · rw [hll] at h
              dsimp only at h ⊢
              simp only [Option.some.injEq, Prod.mk.injEq] at h
              obtain ⟨h1, h2⟩ := h
              subst h1
              subst h2
              rw [setCurrentLeds_idem]
          · rw [if_neg h5] at h ⊢
            simp only [Option.some.injEq, Prod.mk.injEq] at h
            obtain ⟨h1, h2⟩ := h
            subst h1
            subst h2
            rfl

/-- C7 witness: `set:1` is idempotent: re-sending it from the state it
produced yields the same state and the same notification flag. -/
theorem c7_idempotent_except_next_prev_witness :
    wsEvent { initState with currentPreset := 1 } "set:1".toList =
      some ({ initState with currentPreset := 1 }, true) :=
  c7_idempotent_except_next_prev initState { initState with currentPreset := 1 }
    true "set:1".toList (by decide) (by decide) (by decide)

end SolderGoggles
